import Mathlib

/-
Verification development for the resume detail view of the ai-ana
repository (src/app/routes/resume.tsx, src/app/routes/home.tsx).

The embedding models JavaScript values shallowly:
  * JS strings are `List Char`;
  * byte sequences are `List Nat` (each entry < 256 where it matters);
  * `Blob` keeps the byte content together with its MIME type string;
  * falsiness follows the JS rules (null, undefined, false, 0, NaN, "");
  * `atob` follows the WHATWG forgiving-base64 decode used by browsers,
    fused with the `charCodeAt` loop of the source (atob output characters
    all have code points below 256, so the loop is the identity on bytes);
  * operations that may throw are modelled in `Except (List Char)` where
    the thrown value's message matters; the pure `Option` versions mirror
    the source's try/catch structure.
-/

namespace AiAna

/-- Blob models a JS Blob: its byte content and its MIME type. -/
structure Blob where
  content : List Nat
  type : String
deriving DecidableEq

/-- JsValue models the JS values a stored payload or parsed record can be.
Numbers are modelled as integers (with NaN as a separate value); the
source never manipulates fractional numbers. -/
inductive JsValue where
  | nullV
  | undefV
  | bool (b : Bool)
  | num (n : Int)
  | nan
  | str (s : List Char)
  | blob (b : Blob)
  | arrayBuffer (bytes : List Nat)
  | typedView (buffer : List Nat) (byteOffset : Nat) (byteLength : Nat)
  | arr (items : List JsValue)
  | obj (fields : List (List Char × JsValue))

/-- falsy decides JS falsiness: null, undefined, false, 0, NaN and the
empty string are falsy; every object (Blob, ArrayBuffer, view, array,
plain object) is truthy. -/
def falsy : JsValue → Bool
  | .nullV => true
  | .undefV => true
  | .bool b => !b
  | .num n => n == 0
  | .nan => true
  | .str s => s.isEmpty
  | _ => false

/-- isB64Ws recognises the ASCII whitespace removed by forgiving-base64
(TAB, LF, FF, CR, SPACE). -/
def isB64Ws (c : Char) : Bool :=
  c == '\x09' || c == '\x0a' || c == '\x0c' || c == '\x0d' || c == ' '

/-- b64Val gives the 6-bit value of a base64 alphabet character. -/
def b64Val (c : Char) : Option Nat :=
  if 'A' ≤ c && c ≤ 'Z' then some (c.toNat - 65)
  else if 'a' ≤ c && c ≤ 'z' then some (c.toNat - 97 + 26)
  else if '0' ≤ c && c ≤ '9' then some (c.toNat - 48 + 52)
  else if c == '+' then some 62
  else if c == '/' then some 63
  else none

/-- b64Vals maps a whole character list through `b64Val`, failing if any
character is outside the base64 alphabet. -/
def b64Vals : List Char → Option (List Nat)
  | [] => some []
  | c :: cs =>
    match b64Val c, b64Vals cs with
    | some v, some vs => some (v :: vs)
    | _, _ => none

/-- b64DecodeVals turns 6-bit groups into bytes: full groups of four give
three bytes; a trailing group of two gives one byte; of three, two bytes.
A trailing single value cannot occur (length mod 4 = 1 is rejected). -/
def b64DecodeVals : List Nat → List Nat
  | a :: b :: c :: d :: rest =>
      (a * 4 + b / 16) :: ((b % 16) * 16 + c / 4) :: ((c % 4) * 64 + d) ::
        b64DecodeVals rest
  | [a, b] => [a * 4 + b / 16]
  | [a, b, c] => [a * 4 + b / 16, (b % 16) * 16 + c / 4]
  | _ => []

/-- stripPad removes up to two trailing padding characters. -/
def stripPad (l : List Char) : List Char :=
  let l1 := if l.getLast? == some '=' then l.dropLast else l
  if l1.getLast? == some '=' then l1.dropLast else l1

/-- atobCore decodes the cleaned-up character list: reject length mod
4 = 1; reject any character outside the alphabet; decode 6-bit groups. -/
def atobCore (t : List Char) : Option (List Nat) :=
  if t.length % 4 == 1 then none
  else
    match b64Vals t with
    | some vs => some (b64DecodeVals vs)
    | none => none

/-- atobClean strips ASCII whitespace and, when the remaining length is a
multiple of four, up to two trailing padding characters. -/
def atobClean (s : List Char) : List Char :=
  let t0 := s.filter (fun c => !isB64Ws c)
  if t0.length % 4 == 0 then stripPad t0 else t0

/-- atob is the browser base64 decoder (WHATWG forgiving-base64 decode):
strip ASCII whitespace; if the length is a multiple of four, strip up to
two trailing padding characters; reject length mod 4 = 1; reject any
character outside the alphabet; decode 6-bit groups to bytes. -/
def atob (s : List Char) : Option (List Nat) :=
  atobCore (atobClean s)

/-- atobE is `atob` in the exception monad: browsers throw an
InvalidCharacterError DOMException on malformed input. -/
def atobE (s : List Char) : Except (List Char) (List Nat) :=
  match atob s with
  | some bytes => .ok bytes
  | none => .error ("InvalidCharacterError".toList)

/-- marker is the data-URL marker the source searches for. -/
def marker : List Char := "base64,".toList

/-- breakOn finds the first occurrence of `sep` in a list and returns the
part before it together with the part after it, or `none` when `sep` does
not occur. It models `String.prototype.includes` (the `isSome` of the
result) and the pieces produced by `String.prototype.split`. -/
def breakOn (sep : List Char) : List Char → Option (List Char × List Char)
  | [] => none
  | c :: cs =>
    if sep.isPrefixOf (c :: cs) then some ([], (c :: cs).drop sep.length)
    else
      match breakOn sep cs with
      | some (a, r) => some (c :: a, r)
      | none => none

/-- selectB64 models line 48 of resume.tsx:
`data.includes('base64,') ? data.split('base64,')[1] : data`.
`split(sep)[1]` is the text between the first and second occurrence of the
separator (or to the end when the separator occurs once). -/
def selectB64 (s : List Char) : List Char :=
  match breakOn marker s with
  | none => s
  | some (_, rest) =>
    match breakOn marker rest with
    | some (a, _) => a
    | none => rest

/-- hexDigit renders a value below 16 as a lowercase hex digit. -/
def hexDigit (n : Nat) : Char :=
  if n < 10 then Char.ofNat (48 + n) else Char.ofNat (87 + n)

/-- jsonEscapeChar escapes one character for a JSON string literal. -/
def jsonEscapeChar (c : Char) : List Char :=
  if c == '"' then ['\\', '"']
  else if c == '\\' then ['\\', '\\']
  else if c == '\x08' then ['\\', 'b']
  else if c == '\x09' then ['\\', 't']
  else if c == '\x0a' then ['\\', 'n']
  else if c == '\x0c' then ['\\', 'f']
  else if c == '\x0d' then ['\\', 'r']
  else if c.toNat < 32 then
    ['\\', 'u', '0', '0', hexDigit (c.toNat / 16), hexDigit (c.toNat % 16)]
  else [c]

/-- jsonQuote renders a JSON string literal. -/
def jsonQuote (s : List Char) : List Char :=
  '"' :: (s.map jsonEscapeChar).flatten ++ ['"']

/-- intChars renders an integer in decimal. -/
def intChars (n : Int) : List Char := (toString n).toList

/-- natChars renders a natural number in decimal. -/
def natChars (n : Nat) : List Char := (toString n).toList

/-- sepJoin interleaves a separator between pieces. -/
def sepJoin (sep : List Char) : List (List Char) → List Char
  | [] => []
  | [x] => x
  | x :: xs => x ++ sep ++ sepJoin sep xs

/-- viewBytes gives the bytes a typed view itself covers: the slice of its
underlying buffer starting at `byteOffset` of length `byteLength`. -/
def viewBytes (buffer : List Nat) (byteOffset byteLength : Nat) : List Nat :=
  (buffer.drop byteOffset).take byteLength

/-- idxPairs renders the numeric-keyed members `JSON.stringify` produces
for a typed array's elements. -/
def idxPairs (i : Nat) : List Nat → List (List Char)
  | [] => []
  | b :: rest => (jsonQuote (natChars i) ++ ':' :: natChars b) :: idxPairs (i + 1) rest

/-- jsonStrFuel is `JSON.stringify` (fuel-indexed for termination):
`none` models a result of `undefined` (top-level undefined); undefined
members are dropped from objects and become null inside arrays; NaN
serialises as null; a Blob or ArrayBuffer has no enumerable members; a
typed array serialises its elements under numeric keys. The value space
is acyclic and has no BigInt, so serialisation never throws. -/
def jsonStrFuel : Nat → JsValue → Option (List Char)
  | 0, _ => none
  | _, .nullV => some ("null".toList)
  | _, .undefV => none
  | _, .bool true => some ("true".toList)
  | _, .bool false => some ("false".toList)
  | _, .num n => some (intChars n)
  | _, .nan => some ("null".toList)
  | _, .str s => some (jsonQuote s)
  | _, .blob _ => some ['\x7b', '\x7d']
  | _, .arrayBuffer _ => some ['\x7b', '\x7d']
  | _, .typedView buf off len =>
      some ('\x7b' :: sepJoin [','] (idxPairs 0 (viewBytes buf off len)) ++ ['\x7d'])
  | f + 1, .arr items =>
      some ('[' :: sepJoin [','] (items.map (fun x => (jsonStrFuel f x).getD ("null".toList))) ++ [']'])
  | f + 1, .obj fields =>
      some ('\x7b' :: sepJoin [',']
        (fields.filterMap (fun kv => (jsonStrFuel f kv.2).map (fun sx => jsonQuote kv.1 ++ ':' :: sx)))
        ++ ['\x7d'])

mutual

/-- jsSize is a computable structural size of a value, used as stringify
fuel; it strictly exceeds the nesting depth. -/
def jsSize : JsValue → Nat
  | .arr items => jsSizeList items + 1
  | .obj fields => jsSizeFields fields + 1
  | _ => 1

/-- jsSizeList sums the sizes of a list of values. -/
def jsSizeList : List JsValue → Nat
  | [] => 1
  | v :: vs => jsSize v + jsSizeList vs

/-- jsSizeFields sums the sizes of an object's field values. -/
def jsSizeFields : List (List Char × JsValue) → Nat
  | [] => 1
  | (_, v) :: rest => jsSize v + jsSizeFields rest

end

/-- jsonStringifyTop is `JSON.stringify` at a value; the structural size
bounds the nesting depth, so the fuel suffices. -/
def jsonStringifyTop (v : JsValue) : Option (List Char) :=
  jsonStrFuel (jsSize v) v

/-- utf8Bytes encodes one code point in UTF-8. -/
def utf8Bytes (c : Char) : List Nat :=
  let n := c.toNat
  if n < 128 then [n]
  else if n < 2048 then [192 + n / 64, 128 + n % 64]
  else if n < 65536 then [224 + n / 4096, 128 + (n / 64) % 64, 128 + n % 64]
  else [240 + n / 262144, 128 + (n / 4096) % 64, 128 + (n / 64) % 64, 128 + n % 64]

/-- utf8Encode encodes a string as UTF-8 bytes, as the Blob constructor
does with string parts. -/
def utf8Encode (s : List Char) : List Nat := (s.map utf8Bytes).flatten

/-- makeBlobFromPossible models resume.tsx lines 36-65. Checks in source
order: falsy data gives null; a Blob is returned unchanged; an ArrayBuffer
is wrapped; a typed view is wrapped via `data.buffer`, that is, the whole
underlying buffer; a string is base64-decoded (after the first data-URL
marker when one is present) inside try/catch; anything else is
JSON.stringified into a Blob. The JS default for the second argument is
'application/pdf'; both call sites pass it explicitly. -/
def makeBlobFromPossible (data : JsValue) (fallbackMime : String) : Option Blob :=
  if falsy data then none
  else
    match data with
    | .blob b => some b
    | .arrayBuffer bytes => some ⟨bytes, fallbackMime⟩
    | .typedView buffer _ _ => some ⟨buffer, fallbackMime⟩
    | .str s =>
        match atob (selectB64 s) with
        | some bytes => some ⟨bytes, fallbackMime⟩
        | none => none
    | v =>
        match jsonStringifyTop v with
        | some txt => some ⟨utf8Encode txt, fallbackMime⟩
        | none => some ⟨utf8Encode ("undefined".toList), fallbackMime⟩

/-- makeBlobFromPossibleE is the same body in the exception monad: the
`atob` call may throw and is wrapped in the source's try/catch (which
warns and returns null); the serialisation branch is likewise wrapped.
An `Except.error` result would model an exception escaping to the caller. -/
def makeBlobFromPossibleE (data : JsValue) (fallbackMime : String) :
    Except (List Char) (Option Blob) :=
  if falsy data then .ok none
  else
    match data with
    | .blob b => .ok (some b)
    | .arrayBuffer bytes => .ok (some ⟨bytes, fallbackMime⟩)
    | .typedView buffer _ _ => .ok (some ⟨buffer, fallbackMime⟩)
    | .str s =>
        match atobE (selectB64 s) with
        | .ok bytes => .ok (some ⟨bytes, fallbackMime⟩)
        | .error _ => .ok none
    | v =>
        match jsonStringifyTop v with
        | some txt => .ok (some ⟨utf8Encode txt, fallbackMime⟩)
        | none => .ok (some ⟨utf8Encode ("undefined".toList), fallbackMime⟩)

/-- isJsonWs recognises JSON whitespace. -/
def isJsonWs (c : Char) : Bool :=
  c == ' ' || c == '\x09' || c == '\x0a' || c == '\x0d'

/-- skipWs drops leading JSON whitespace. -/
def skipWs : List Char → List Char
  | [] => []
  | c :: cs => if isJsonWs c then skipWs cs else c :: cs

/-- hexVal gives the value of a hexadecimal digit. -/
def hexVal (c : Char) : Option Nat :=
  if '0' ≤ c && c ≤ '9' then some (c.toNat - 48)
  else if 'a' ≤ c && c ≤ 'f' then some (c.toNat - 87)
  else if 'A' ≤ c && c ≤ 'F' then some (c.toNat - 55)
  else none

/-- digitVal gives the value of a decimal digit. -/
def digitVal (c : Char) : Option Nat :=
  if '0' ≤ c && c ≤ '9' then some (c.toNat - 48) else none

/-- takeDigits splits off a maximal run of leading decimal digits. -/
def takeDigits : List Char → (List Nat × List Char)
  | [] => ([], [])
  | c :: cs =>
    match digitVal c with
    | some d => let r := takeDigits cs; (d :: r.1, r.2)
    | none => ([], c :: cs)

/-- digitsToNat folds decimal digits into a number. -/
def digitsToNat (ds : List Nat) : Nat := ds.foldl (fun a d => a * 10 + d) 0

/-- parseStrBody reads a JSON string body after the opening quote and
returns the content and the remainder after the closing quote. -/
def parseStrBody : Nat → List Char → Except (List Char) (List Char × List Char)
  | 0, _ => .error ("JSON depth exhausted".toList)
  | _, [] => .error ("Unterminated string in JSON".toList)
  | f + 1, c :: cs =>
    if c == '"' then .ok ([], cs)
    else if c == '\\' then
      match cs with
      | [] => .error ("Unterminated string in JSON".toList)
      | e :: cs2 =>
        let cont : Char → List Char → Except (List Char) (List Char × List Char) :=
          fun ch rest =>
            match parseStrBody f rest with
            | .ok (t, r) => .ok (ch :: t, r)
            | .error m => .error m
        if e == '"' then cont '"' cs2
        else if e == '\\' then cont '\\' cs2
        else if e == '/' then cont '/' cs2
        else if e == 'n' then cont '\x0a' cs2
        else if e == 't' then cont '\x09' cs2
        else if e == 'r' then cont '\x0d' cs2
        else if e == 'b' then cont '\x08' cs2
        else if e == 'f' then cont '\x0c' cs2
        else if e == 'u' then
          match cs2 with
          | h1 :: h2 :: h3 :: h4 :: cs3 =>
            match hexVal h1, hexVal h2, hexVal h3, hexVal h4 with
            | some a, some b, some c4, some d =>
                cont (Char.ofNat (a * 4096 + b * 256 + c4 * 16 + d)) cs3
            | _, _, _, _ => .error ("Bad unicode escape in JSON".toList)
          | _ => .error ("Bad unicode escape in JSON".toList)
        else .error ("Bad escape in JSON".toList)
    else
      match parseStrBody f cs with
      | .ok (t, r) => .ok (c :: t, r)
      | .error m => .error m

/-- parseIntLit reads an integer literal. Fractional or exponent parts are
outside the model (the record format only carries integer scores). -/
def parseIntLit (s : List Char) : Except (List Char) (JsValue × List Char) :=
  let (neg, s1) := match s with
    | '-' :: rest => (true, rest)
    | _ => (false, s)
  match takeDigits s1 with
  | ([], _) => .error ("Unexpected token in JSON".toList)
  | (ds, rest) =>
    match rest with
    | '.' :: _ => .error ("Non-integer number literal outside model".toList)
    | 'e' :: _ => .error ("Non-integer number literal outside model".toList)
    | 'E' :: _ => .error ("Non-integer number literal outside model".toList)
    | _ =>
      let n : Int := Int.ofNat (digitsToNat ds)
      .ok (.num (if neg then -n else n), rest)

mutual

/-- parseVal reads one JSON value (fuel-indexed recursive descent
modelling `JSON.parse`). -/
def parseVal : Nat → List Char → Except (List Char) (JsValue × List Char)
  | 0, _ => .error ("JSON depth exhausted".toList)
  | f + 1, s =>
    match skipWs s with
    | [] => .error ("Unexpected end of JSON input".toList)
    | c :: cs =>
      if c == '\x7b' then
        match skipWs cs with
        | '\x7d' :: rest => .ok (.obj [], rest)
        | other => parseMembers f other []
      else if c == '[' then
        match skipWs cs with
        | ']' :: rest => .ok (.arr [], rest)
        | other => parseElems f other []
      else if c == '"' then
        match parseStrBody f cs with
        | .ok (t, r) => .ok (.str t, r)
        | .error m => .error m
      else if c == 't' then
        if "rue".toList.isPrefixOf cs then .ok (.bool true, cs.drop 3)
        else .error ("Unexpected token in JSON".toList)
      else if c == 'f' then
        if "alse".toList.isPrefixOf cs then .ok (.bool false, cs.drop 4)
        else .error ("Unexpected token in JSON".toList)
      else if c == 'n' then
        if "ull".toList.isPrefixOf cs then .ok (.nullV, cs.drop 3)
        else .error ("Unexpected token in JSON".toList)
      else if c == '-' || (digitVal c).isSome then parseIntLit (c :: cs)
      else .error ("Unexpected token in JSON".toList)

/-- parseMembers reads object members after the opening brace of a
non-empty object. -/
def parseMembers : Nat → List Char → List (List Char × JsValue) →
    Except (List Char) (JsValue × List Char)
  | 0, _, _ => .error ("JSON depth exhausted".toList)
  | f + 1, s, acc =>
    match skipWs s with
    | '"' :: cs =>
      match parseStrBody f cs with
      | .error m => .error m
      | .ok (key, r1) =>
        match skipWs r1 with
        | ':' :: r2 =>
          match parseVal f r2 with
          | .error m => .error m
          | .ok (v, r3) =>
            match skipWs r3 with
            | ',' :: r4 => parseMembers f r4 (acc ++ [(key, v)])
            | '\x7d' :: r4 => .ok (.obj (acc ++ [(key, v)]), r4)
            | _ => .error ("Expected comma or closing brace in JSON".toList)
        | _ => .error ("Expected colon in JSON".toList)
    | _ => .error ("Expected string key in JSON".toList)

/-- parseElems reads array elements after the opening bracket of a
non-empty array. -/
def parseElems : Nat → List Char → List JsValue →
    Except (List Char) (JsValue × List Char)
  | 0, _, _ => .error ("JSON depth exhausted".toList)
  | f + 1, s, acc =>
    match parseVal f s with
    | .error m => .error m
    | .ok (v, r1) =>
      match skipWs r1 with
      | ',' :: r2 => parseElems f r2 (acc ++ [v])
      | ']' :: r2 => .ok (.arr (acc ++ [v]), r2)
      | _ => .error ("Expected comma or closing bracket in JSON".toList)

end

/-- jsonParseE models `JSON.parse`: parse one value, allow trailing
whitespace only. Thrown SyntaxErrors are the `Except.error` results. -/
def jsonParseE (s : List Char) : Except (List Char) JsValue :=
  match parseVal (s.length + 8) s with
  | .ok (v, rest) =>
    if (skipWs rest).isEmpty then .ok v
    else .error ("Unexpected trailing characters in JSON".toList)
  | .error m => .error m

/-- getFieldE models a JS property access `v.name`: it throws a TypeError
on null or undefined, finds the last binding of the name on a plain
object, and yields undefined on every other receiver (the accessed names
never collide with built-in properties). -/
def getFieldE (v : JsValue) (name : List Char) : Except (List Char) JsValue :=
  match v with
  | .nullV => .error (("Cannot read properties of null".toList))
  | .undefV => .error (("Cannot read properties of undefined".toList))
  | .obj fields =>
    match fields.reverse.find? (fun kv => kv.1 == name) with
    | some kv => .ok kv.2
    | none => .ok .undefV
  | _ => .ok .undefV

/-- ViewState collects the React state of the Resume view. `none` for a
URL models the initial empty string; object URLs are registry handles. -/
structure ViewState where
  imageUrl : Option Nat
  resumeUrl : Option Nat
  feedback : JsValue
  error : Option (List Char)

/-- initView is the initial state: empty URLs, null feedback, null error. -/
def initView : ViewState :=
  { imageUrl := none, resumeUrl := none, feedback := .nullV, error := none }

/-- World carries everything one effect run can observe or mutate:
the `createdUrls` ref, the `mounted` liveness flag, the registry of all
object URLs ever created (`created`, in creation order, allocated by
`nextUrl`), the multiset of revocation calls performed (`revoked`), and
the React state. -/
structure World where
  createdUrls : List Nat
  mounted : Bool
  created : List Nat
  revoked : List Nat
  nextUrl : Nat
  st : ViewState

/-- initWorld is the world at effect start. -/
def initWorld : World :=
  { createdUrls := [], mounted := true, created := [], revoked := [],
    nextUrl := 0, st := initView }

/-- Env is the external world of one load: the key-value store result for
the id, the file store, and which revocations would throw. -/
structure Env where
  kv : Option (List Char)
  fsRead : JsValue → Option JsValue
  revokeFails : Nat → Bool

/-- createObjectURL models `URL.createObjectURL`: a fresh handle. -/
def createObjectURL (w : World) : Nat × World :=
  (w.nextUrl, { w with created := w.created ++ [w.nextUrl], nextUrl := w.nextUrl + 1 })

/-- pushUrl models resume.tsx lines 32-34: record a created URL on the
`createdUrls` ref. -/
def pushUrl (w : World) (u : Nat) : World :=
  { w with createdUrls := w.createdUrls ++ [u] }

/-- tryRevoke models one `URL.revokeObjectURL(u)` call that may throw. -/
def tryRevoke (fails : Nat → Bool) (u : Nat) : Except (List Char) Unit :=
  if fails u then .error ("revoke failed".toList) else .ok ()

/-- cleanupRevokes models the cleanup loop of resume.tsx lines 129-131:
each revocation is attempted inside try/catch, so a throwing revocation
is swallowed and the loop continues with the next URL. The result lists
the URLs on which a revocation call was made. -/
def cleanupRevokes (fails : Nat → Bool) : List Nat → List Nat
  | [] => []
  | u :: us =>
    match tryRevoke fails u with
    | .ok _ => u :: cleanupRevokes fails us
    | .error _ => u :: cleanupRevokes fails us

/-- cleanup models the effect cleanup (resume.tsx lines 126-133): clear
the liveness flag, revoke every URL on the ref, empty the ref. -/
def cleanup (env : Env) (w : World) : World :=
  { w with mounted := false,
           revoked := w.revoked ++ cleanupRevokes env.revokeFails w.createdUrls,
           createdUrls := [] }

/-- notFoundMsg is the error for a missing key-value record. -/
def notFoundMsg : List Char := "Resume not found in kv.".toList

/-- failedReadMsg is the error for an unreadable PDF payload. -/
def failedReadMsg : List Char := "Failed to read resume PDF from fs.".toList

/-- couldNotMsg is the error for an unrepresentable PDF payload. -/
def couldNotMsg : List Char := "Could not create PDF blob from resume data.".toList

/-- resumePathKey names the record field holding the PDF path. -/
def resumePathKey : List Char := "resumePath".toList

/-- imagePathKey names the record field holding the image path. -/
def imagePathKey : List Char := "imagePath".toList

/-- feedbackKey names the record field holding the feedback value. -/
def feedbackKey : List Char := "feedback".toList

/-- setErrReturn models an early `setError(msg); return` guarded by the
liveness flag (`if (!mounted) return;`). -/
def setErrReturn (w : World) (msg : List Char) : World :=
  if w.mounted then { w with st := { w.st with error := some msg } } else w

/-- loadResume models resume.tsx lines 67-122 as a function of the
environment. The suspension points of the async body are its three
awaits; `k` says during which await the view was torn down (its cleanup
runs there and the body keeps running, as the liveness flag, not
cancellation, is the coping mechanism): `k = 1` during the PDF read,
`k = 2` during the image read, any other `k` leaves the body
uninterrupted. Exceptions of `JSON.parse` and of property accesses are
the `setErrReturn w e` branches: the enclosing try/catch turns them into
an error state. -/
def loadResume (env : Env) (k : Nat) (w : World) : World :=
  match env.kv with
  | none => setErrReturn w notFoundMsg
  | some s =>
    if s.isEmpty then setErrReturn w notFoundMsg
    else
      match jsonParseE s with
      | .error e => setErrReturn w e
      | .ok data =>
        match getFieldE data resumePathKey with
        | .error e => setErrReturn w e
        | .ok rpath =>
          let w := if k == 1 then cleanup env w else w
          match env.fsRead rpath with
          | none => setErrReturn w failedReadMsg
          | some resumeRaw =>
            if falsy resumeRaw then setErrReturn w failedReadMsg
            else
              match makeBlobFromPossible resumeRaw "application/pdf" with
              | none => setErrReturn w couldNotMsg
              | some _pdfBlob =>
                let p := createObjectURL w
                let w := pushUrl p.2 p.1
                let w := if w.mounted then
                    { w with st := { w.st with resumeUrl := some p.1 } }
                  else w
                match getFieldE data imagePathKey with
                | .error e => setErrReturn w e
                | .ok ipath =>
                  let w := if k == 2 then cleanup env w else w
                  let w :=
                    match env.fsRead ipath with
                    | none => w
                    | some imageRaw =>
                      if falsy imageRaw then w
                      else
                        match (match makeBlobFromPossible imageRaw "image/png" with
                               | some b => some b
                               | none => makeBlobFromPossible imageRaw "image/jpeg") with
                        | some _imgBlob =>
                          let q := createObjectURL w
                          let w := pushUrl q.2 q.1
                          if w.mounted then
                            { w with st := { w.st with imageUrl := some q.1 } }
                          else w
                        | none => w
                  match getFieldE data feedbackKey with
                  | .error e => setErrReturn w e
                  | .ok fbv =>
                    if w.mounted then
                      { w with st := { w.st with
                          feedback := if falsy fbv then .nullV else fbv,
                          error := none } }
                    else w

/-- runWithCut runs one effect instance whose view is torn down at cut
`k`: `k = 0` while the key-value read is pending (cleanup first, body
continues unmounted), `k = 1` or `k = 2` during the respective file
reads, `k = 3` after the load finished (ordinary unmount). -/
def runWithCut (env : Env) (k : Nat) : World :=
  let w0 := if k == 0 then cleanup env initWorld else initWorld
  let w1 := loadResume env k w0
  if k == 3 then cleanup env w1 else w1

/-- runLoad runs one effect instance to completion with the view still
mounted (no teardown yet). -/
def runLoad (env : Env) : World :=
  loadResume env 1000 initWorld

/-- Rendered abstracts the JSX of the Resume component: whether the PDF
link renders, whether the preview image renders, whether the feedback
sections render, and the displayed error text. -/
structure Rendered where
  showsPdfLink : Bool
  showsImage : Bool
  showsFeedback : Bool
  errorText : Option (List Char)
deriving DecidableEq

/-- render models resume.tsx lines 136-173: the anchor holding the PDF
link and the preview image sit inside one `imageUrl && resumeUrl` guard;
the error div renders when the error string is truthy; the feedback
sections render when feedback is truthy. -/
def render (st : ViewState) : Rendered :=
  { showsPdfLink := st.imageUrl.isSome && st.resumeUrl.isSome,
    showsImage := st.imageUrl.isSome && st.resumeUrl.isSome,
    showsFeedback := !(falsy st.feedback),
    errorText :=
      match st.error with
      | some e => if e.isEmpty then none else some e
      | none => none }

/-! Lemmas about the marker search and the base64 decoder. -/

/-- Every character of a found separator occurs in the searched list. -/
theorem breakOn_mem {sep : List Char} {c : Char} (hc : c ∈ sep) :
    ∀ {l : List Char} {x : List Char × List Char}, breakOn sep l = some x → c ∈ l := by
  intro l
  induction l with
  | nil => intro x h; simp [breakOn] at h
  | cons a as ih =>
    intro x h
    by_cases hp : sep.isPrefixOf (a :: as) = true
    · exact (List.isPrefixOf_iff_prefix.mp hp).subset hc
    · simp only [breakOn, hp] at h
      rcases hr : breakOn sep as with _ | y
      · rw [hr] at h; exact absurd h (by simp)
      · exact List.mem_cons_of_mem a (ih hr)

/-- A separator containing a character absent from the list is not found. -/
theorem breakOn_none_of_not_mem {sep l : List Char} {c : Char}
    (hc : c ∈ sep) (hl : c ∉ l) : breakOn sep l = none := by
  rcases h : breakOn sep l with _ | x
  · rfl
  · exact absurd (breakOn_mem hc h) hl

/-- A found separator means the searched list is nonempty. -/
theorem breakOn_ne_nil {sep l : List Char} {x : List Char × List Char}
    (h : breakOn sep l = some x) : l ≠ [] := by
  intro hnil; subst hnil; simp [breakOn] at h

/-- A member that differs from the last element survives `dropLast`. -/
theorem mem_dropLast_of_ne_last :
    ∀ (l : List Char) (c x : Char), c ∈ l → l.getLast? = some x → c ≠ x →
      c ∈ l.dropLast := by
  intro l
  induction l with
  | nil => intro c x hc _ _; simp at hc
  | cons a as ih =>
    intro c x hc hlast hne
    cases as with
    | nil => simp_all
    | cons b bs =>
      rw [List.getLast?_cons_cons] at hlast
      have hdl : (a :: b :: bs).dropLast = a :: (b :: bs).dropLast := by
        simp [List.dropLast]
      rw [hdl]
      rcases List.mem_cons.mp hc with h | h
      · exact h ▸ List.mem_cons_self a _
      · exact List.mem_cons_of_mem a (ih c x h hlast hne)

/-- A member other than the padding character survives `stripPad`. -/
theorem mem_stripPad {l : List Char} {c : Char} (hc : c ∈ l) (hne : c ≠ '=') :
    c ∈ stripPad l := by
  unfold stripPad
  have step : ∀ (l' : List Char), c ∈ l' →
      c ∈ (if l'.getLast? == some '=' then l'.dropLast else l') := by
    intro l' hmem
    by_cases h : l'.getLast? == some '='
    · simp only [h, if_pos]
      exact mem_dropLast_of_ne_last l' c '=' hmem (eq_of_beq h) hne
    · simp only [h]
      simpa using hmem
  exact step _ (step _ hc)

/-- A comma anywhere in the list makes `b64Vals` fail. -/
theorem b64Vals_none_of_comma : ∀ {l : List Char}, ',' ∈ l → b64Vals l = none := by
  intro l
  induction l with
  | nil => intro h; simp at h
  | cons a as ih =>
    intro h
    rcases List.mem_cons.mp h with h | h
    · subst h; simp [b64Vals, b64Val]
    · simp only [b64Vals, ih h]
      rcases b64Val a with _ | v <;> rfl

/-- atobCore fails on any list containing a comma. -/
theorem atobCore_none_of_comma {t : List Char} (ht : ',' ∈ t) :
    atobCore t = none := by
  unfold atobCore
  by_cases h1 : (t.length % 4 == 1) = true
  · simp [h1]
  · simp only [h1, Bool.false_eq_true, if_false, b64Vals_none_of_comma ht]

/-- A comma survives the whitespace stripping and padding removal. -/
theorem mem_atobClean_comma {s : List Char} (hs : ',' ∈ s) :
    ',' ∈ atobClean s := by
  unfold atobClean
  have h0 : ',' ∈ s.filter (fun c => !isB64Ws c) :=
    List.mem_filter.mpr ⟨hs, by decide⟩
  by_cases h4 : ((s.filter (fun c => !isB64Ws c)).length % 4 == 0) = true
  · simp only [h4, if_true]
    exact mem_stripPad h0 (by decide)
  · simpa [h4] using h0

/-- A comma anywhere in the input makes `atob` fail: the comma is not
whitespace, not padding, and not in the alphabet. -/
theorem atob_none_of_mem_comma {s : List Char} (hs : ',' ∈ s) : atob s = none :=
  atobCore_none_of_comma (mem_atobClean_comma hs)

/-- A successful `atob` input contains no comma. -/
theorem atob_not_mem_comma {s : List Char} {b : List Nat}
    (h : atob s = some b) : ',' ∉ s := by
  intro hc
  rw [atob_none_of_mem_comma hc] at h
  exact absurd h (by simp)

/-- When the part after the first marker is valid base64, the source's
`split('base64,')[1]` selects exactly that part: valid base64 contains no
comma, hence no second marker. -/
theorem selectB64_of_marker {t pre suf : List Char} {b : List Nat}
    (hbrk : breakOn marker t = some (pre, suf)) (hsuf : atob suf = some b) :
    selectB64 t = suf := by
  have h2 : breakOn marker suf = none :=
    breakOn_none_of_not_mem (show ',' ∈ marker by decide) (atob_not_mem_comma hsuf)
  simp [selectB64, hbrk, h2]

/-- A nonempty string payload reaches the base64 branch. -/
theorem makeBlob_str {s : List Char} (m : String) (hne : s ≠ []) :
    makeBlobFromPossible (.str s) m =
      match atob (selectB64 s) with
      | some bytes => some ⟨bytes, m⟩
      | none => none := by
  have hf : falsy (.str s) = false := by
    cases s with
    | nil => exact absurd rfl hne
    | cons a as => rfl
  simp [makeBlobFromPossible, hf]

/-! Claim theorems about the payload normalizer. -/

/-- Claim C1, counterexample: the empty string is valid base64 denoting
zero bytes, yet `normalize` returns null for it rather than a binary
object, because the falsy guard fires before the string branch. -/
theorem c1_empty_string_counterexample :
    atob [] = some [] ∧ makeBlobFromPossible (.str []) "application/pdf" = none :=
  ⟨rfl, rfl⟩

/-- Claim C1 as amended: for every NONEMPTY valid base64 text decoding to
bytes `b` and every media type `m`, normalization yields a blob with
content `b` and type `m`; when a data-URL marker is present, exactly the
substring after the first marker is decoded (valid base64 contains no
comma, so no second marker can follow). -/
theorem c1_base64_decoding_amended :
    (∀ (t : List Char) (b : List Nat) (m : String),
      t ≠ [] → breakOn marker t = none → atob t = some b →
      makeBlobFromPossible (.str t) m = some ⟨b, m⟩) ∧
    (∀ (t pre suf : List Char) (b : List Nat) (m : String),
      breakOn marker t = some (pre, suf) → atob suf = some b →
      makeBlobFromPossible (.str t) m = some ⟨b, m⟩) := by
  constructor
  · intro t b m hne hnm hdec
    rw [makeBlob_str m hne]
    have hsel : selectB64 t = t := by simp [selectB64, hnm]
    rw [hsel, hdec]
  · intro t pre suf b m hbrk hdec
    rw [makeBlob_str m (breakOn_ne_nil hbrk)]
    rw [selectB64_of_marker hbrk hdec, hdec]

/-- Claim C1 amended, witness: a data-URL prefixed payload decodes the
part after the marker; a bare base64 text decodes wholly. -/
theorem c1_base64_decoding_witness :
    makeBlobFromPossible (.str ("data:application/pdf;base64,QQ==".toList))
        "application/pdf" = some ⟨[65], "application/pdf"⟩ ∧
    makeBlobFromPossible (.str ("TWFu".toList)) "image/png" =
        some ⟨[77, 97, 110], "image/png"⟩ := by
  constructor
  · exact c1_base64_decoding_amended.2 _ ("data:application/pdf;".toList)
      ("QQ==".toList) [65] "application/pdf" (by decide) (by decide)
  · exact c1_base64_decoding_amended.1 ("TWFu".toList) [77, 97, 110]
      "image/png" (by decide) (by decide) (by decide)

/-- Claim C2: the normalizer never lets an exception escape to its caller
(the exception-monad embedding always returns `ok`, agreeing with the
pure function), and a string whose selected base64 part is malformed
degrades to null. The Lean embedding is a pure function, matching the
claim that the routine performs no state mutation beyond the diagnostic
`console.warn`. -/
theorem c2_never_raises :
    (∀ (data : JsValue) (m : String),
      makeBlobFromPossibleE data m = Except.ok (makeBlobFromPossible data m)) ∧
    (∀ (s : List Char) (m : String), atob (selectB64 s) = none →
      makeBlobFromPossible (.str s) m = none) := by
  constructor
  · intro data m
    cases data with
    | nullV => rfl
    | undefV => rfl
    | nan => rfl
    | blob b => rfl
    | arrayBuffer bs => rfl
    | typedView buf off len => rfl
    | bool b =>
      cases b with
      | false => rfl
      | true =>
        rcases h : jsonStringifyTop (.bool true) with _ | txt <;>
          simp [makeBlobFromPossible, makeBlobFromPossibleE, falsy, h]
    | num n =>
      by_cases h0 : (n == 0) = true
      · simp [makeBlobFromPossible, makeBlobFromPossibleE, falsy, h0]
      · rcases h : jsonStringifyTop (.num n) with _ | txt <;>
          simp [makeBlobFromPossible, makeBlobFromPossibleE, falsy, h0, h]
    | str s =>
      by_cases h0 : s.isEmpty = true
      · simp [makeBlobFromPossible, makeBlobFromPossibleE, falsy, h0]
      · rcases h : atob (selectB64 s) with _ | bytes <;>
          simp [makeBlobFromPossible, makeBlobFromPossibleE, falsy, atobE, h0, h]
    | arr items =>
      rcases h : jsonStringifyTop (.arr items) with _ | txt <;>
        simp [makeBlobFromPossible, makeBlobFromPossibleE, falsy, h]
    | obj fields =>
      rcases h : jsonStringifyTop (.obj fields) with _ | txt <;>
        simp [makeBlobFromPossible, makeBlobFromPossibleE, falsy, h]
  · intro s m h
    cases s with
    | nil => rfl
    | cons a as =>
      rw [makeBlob_str m (by simp)]
      rw [h]

/-- Claim C2, witness: a malformed base64 string yields null, and
the exception-monad run of the same input returns `ok` (no escape). -/
theorem c2_never_raises_witness :
    makeBlobFromPossible (.str ("!!!".toList)) "application/pdf" = none ∧
    makeBlobFromPossibleE (.str ("!!!".toList)) "application/pdf" =
      Except.ok none := by
  refine ⟨c2_never_raises.2 ("!!!".toList) "application/pdf" (by decide), ?_⟩
  have h := c2_never_raises.1 (.str ("!!!".toList)) "application/pdf"
  rw [h, c2_never_raises.2 ("!!!".toList) "application/pdf" (by decide)]

/-- Claim C4, counterexample: for a typed view covering bytes 1..2 of a
four-byte buffer, the code wraps `data.buffer` — the WHOLE buffer — so
the blob content is all four bytes, not the two bytes of the view. -/
theorem c4_typed_view_counterexample :
    makeBlobFromPossible (.typedView [1, 2, 3, 4] 1 2) "image/png" =
      some ⟨[1, 2, 3, 4], "image/png"⟩ ∧
    viewBytes [1, 2, 3, 4] 1 2 = [2, 3] ∧
    ([1, 2, 3, 4] : List Nat) ≠ [2, 3] :=
  ⟨rfl, rfl, by decide⟩

/-- Claim C4 as amended: for a typed view the blob content equals the
bytes of the view's ENTIRE underlying buffer (which coincides with the
view's own bytes only when the view spans the whole buffer), tagged with
the fallback media type. -/
theorem c4_typed_view_amended :
    ∀ (buffer : List Nat) (byteOffset byteLength : Nat) (m : String),
      makeBlobFromPossible (.typedView buffer byteOffset byteLength) m =
        some ⟨buffer, m⟩ :=
  fun _ _ _ _ => rfl

/-- Claim C6: an absent payload (null or undefined) yields null for every
fallback media type, and no error is raised (the exception-monad run
returns `ok none`). -/
theorem c6_absent_payload :
    ∀ m : String,
      makeBlobFromPossible .nullV m = none ∧
      makeBlobFromPossible .undefV m = none ∧
      makeBlobFromPossibleE .nullV m = Except.ok none ∧
      makeBlobFromPossibleE .undefV m = Except.ok none :=
  fun _ => ⟨rfl, rfl, rfl, rfl⟩

/-- Claim C7: a raw byte buffer is wrapped unchanged with the fallback
media type. -/
theorem c7_raw_buffer :
    ∀ (b : List Nat) (m : String),
      makeBlobFromPossible (.arrayBuffer b) m = some ⟨b, m⟩ :=
  fun _ _ => rfl

/-- Claim C9: whether normalization returns null never depends on the
media type argument, and in particular the image/jpeg retry after a
failed image/png attempt on the same payload always returns null too. -/
theorem c9_mime_independent :
    (∀ (p : JsValue) (m1 m2 : String),
      (makeBlobFromPossible p m1 = none ↔ makeBlobFromPossible p m2 = none)) ∧
    (∀ p : JsValue, makeBlobFromPossible p "image/png" = none →
      makeBlobFromPossible p "image/jpeg" = none) := by
  have main : ∀ (p : JsValue) (m1 m2 : String),
      (makeBlobFromPossible p m1 = none ↔ makeBlobFromPossible p m2 = none) := by
    intro p m1 m2
    cases p <;>
      simp only [makeBlobFromPossible] <;>
      split <;>
      (try simp) <;>
      split <;> simp
  exact ⟨main, fun p h => (main p "image/png" "image/jpeg").mp h⟩

/-- Claim C9, witness: a malformed base64 string fails for image/png and
therefore also for the image/jpeg retry. -/
theorem c9_mime_independent_witness :
    makeBlobFromPossible (.str ['!']) "image/jpeg" = none :=
  c9_mime_independent.2 (.str ['!']) (by decide)

/-- Claim C10: every falsy payload yields null — not only null and
undefined but also the empty string (even though it is valid base64 for
zero bytes), the number 0, false, and NaN. -/
theorem c10_falsy_payloads :
    ∀ m : String,
      makeBlobFromPossible (.str []) m = none ∧
      makeBlobFromPossible (.num 0) m = none ∧
      makeBlobFromPossible (.bool false) m = none ∧
      makeBlobFromPossible .nan m = none ∧
      atob [] = some [] :=
  fun _ => ⟨rfl, rfl, rfl, rfl, rfl⟩

/-! Lemmas and claim theorems about the detail-view orchestration. -/

/-- Every revocation in the cleanup loop is attempted, whether or not the
registry throws: the per-URL try/catch swallows failures. -/
theorem cleanupRevokes_eq (fails : Nat → Bool) :
    ∀ us : List Nat, cleanupRevokes fails us = us := by
  intro us
  induction us with
  | nil => rfl
  | cons u rest ih =>
    unfold cleanupRevokes
    rcases h : tryRevoke fails u with _ | _ <;> simp [ih]

set_option maxHeartbeats 2000000 in
/-- An uninterrupted load keeps the `createdUrls` ref equal to the list
of all object URLs it created, performs no revocation itself, and creates
zero, one, or two URLs (handles 0 and 1). -/
theorem loadResume_three_shape (env : Env) :
    (loadResume env 3 initWorld).revoked = [] ∧
    (loadResume env 3 initWorld).createdUrls = (loadResume env 3 initWorld).created ∧
    ((loadResume env 3 initWorld).created = [] ∨
     (loadResume env 3 initWorld).created = [0] ∨
     (loadResume env 3 initWorld).created = [0, 1]) := by
  unfold loadResume
  repeat' split
  all_goals try simp [setErrReturn, createObjectURL, pushUrl, initWorld,
    initView, cleanup, cleanupRevokes]
  all_goals simp_all

/-- recJson is a well-formed stored record, JSON-serialised. -/
def recJson : List Char :=
  "\x7b\"resumePath\":\"a\",\"imagePath\":\"b\",\"feedback\":\x7b\"ATS\":\x7b\"score\":80,\"tips\":[\"Add metrics\"]\x7d\x7d\x7d".toList

/-- envBothOk is an environment where the record exists and both file
reads return valid byte buffers. -/
def envBothOk : Env :=
  { kv := some recJson,
    fsRead := fun p =>
      match p with
      | .str s =>
        if s = ['a'] then some (.arrayBuffer [37])
        else if s = ['b'] then some (.arrayBuffer [88])
        else none
      | _ => none,
    revokeFails := fun _ => false }

/-- envImgFail is an environment where the record exists, the PDF read
succeeds, and the image read returns null. -/
def envImgFail : Env :=
  { kv := some recJson,
    fsRead := fun p =>
      match p with
      | .str s => if s = ['a'] then some (.arrayBuffer [37]) else none
      | _ => none,
    revokeFails := fun _ => false }

/-- envNotFound is an environment where the key-value store has no record
for the id. -/
def envNotFound : Env :=
  { kv := none, fsRead := fun _ => none, revokeFails := fun _ => false }

/-- Claim C8: when the key-value store returns null, the load sets the
error state to exactly "Resume not found in kv." and creates no object
URLs. -/
theorem c8_not_found (env : Env) (h : env.kv = none) :
    (runLoad env).st.error = some notFoundMsg ∧ (runLoad env).created = [] := by
  unfold runLoad loadResume
  rw [h]
  exact ⟨rfl, rfl⟩

/-- Claim C8, witness at a concrete environment. -/
theorem c8_not_found_witness :
    (runLoad envNotFound).st.error = some notFoundMsg ∧
    (runLoad envNotFound).created = [] :=
  c8_not_found envNotFound rfl

/-- Claim C3, counterexample: with the record found, the PDF read and
normalization succeeding (the PDF handle exists) and the image read
failing, the view does NOT render the PDF link: the anchor sits inside
the `imageUrl && resumeUrl` guard, so an empty image hides the PDF link
too. Feedback renders and no error is surfaced, as the claim says, but
the claimed PDF link is absent. -/
theorem c3_pdf_link_counterexample :
    (runLoad envImgFail).st.resumeUrl = some 0 ∧
    (runLoad envImgFail).st.error = none ∧
    render (runLoad envImgFail).st =
      { showsPdfLink := false, showsImage := false, showsFeedback := true,
        errorText := none } :=
  ⟨by decide, by decide, by rfl⟩

/-- Claim C3 as amended: in the scenario (record found and parsed, PDF
read and normalization succeed, image read returns null or its payload is
falsy or fails both normalization attempts, feedback truthy), the view
renders the feedback sections with no error state, the image area stays
empty, and the PDF link is NOT rendered either — the render guard shows
the PDF anchor only when both the image and the PDF URLs are set, even
though the PDF handle was created. -/
theorem c3_image_failure_amended
    (env : Env) (s : List Char) (data rpath ipath fbv praw : JsValue) (pb : Blob)
    (hkv : env.kv = some s) (hne : s.isEmpty = false)
    (hparse : jsonParseE s = Except.ok data)
    (hrp : getFieldE data resumePathKey = Except.ok rpath)
    (hpr : env.fsRead rpath = some praw)
    (hprt : falsy praw = false)
    (hpb : makeBlobFromPossible praw "application/pdf" = some pb)
    (hip : getFieldE data imagePathKey = Except.ok ipath)
    (himg : env.fsRead ipath = none ∨
      ∃ iraw, env.fsRead ipath = some iraw ∧
        (falsy iraw = true ∨
         (makeBlobFromPossible iraw "image/png" = none ∧
          makeBlobFromPossible iraw "image/jpeg" = none)))
    (hfb : getFieldE data feedbackKey = Except.ok fbv)
    (hfbt : falsy fbv = false) :
    (runLoad env).st.resumeUrl = some 0 ∧
    render (runLoad env).st =
      { showsPdfLink := false, showsImage := false, showsFeedback := true,
        errorText := none } := by
  unfold runLoad loadResume
  simp only [hkv, hne, Bool.false_eq_true, if_false, hparse, hrp, hpr, hprt,
    hpb, hip, hfb]
  rcases himg with himg | ⟨iraw, hiraw, hifail⟩
  · simp only [himg]
    simp [render, createObjectURL, pushUrl, setErrReturn, initWorld, initView,
      hfbt]
  · simp only [hiraw]
    rcases hifail with hifail | ⟨hpng, hjpeg⟩
    · simp only [hifail, if_true]
      simp [render, createObjectURL, pushUrl, setErrReturn, initWorld,
        initView, hfbt]
    · simp only [hpng, hjpeg, Bool.false_eq_true, if_false]
      simp [render, createObjectURL, pushUrl, setErrReturn, initWorld,
        initView, hfbt]

/-- Claim C3 amended, witness at a concrete environment. -/
theorem c3_image_failure_witness :
    (runLoad envImgFail).st.resumeUrl = some 0 ∧
    render (runLoad envImgFail).st =
      { showsPdfLink := false, showsImage := false, showsFeedback := true,
        errorText := none } :=
  c3_image_failure_amended envImgFail recJson
    (.obj [(resumePathKey, .str ['a']), (imagePathKey, .str ['b']),
      (feedbackKey, .obj [("ATS".toList,
        .obj [("score".toList, .num 80),
              ("tips".toList, .arr [.str "Add metrics".toList])])])])
    (.str ['a']) (.str ['b'])
    (.obj [("ATS".toList,
      .obj [("score".toList, .num 80),
            ("tips".toList, .arr [.str "Add metrics".toList])])])
    (.arrayBuffer [37]) ⟨[37], "application/pdf"⟩
    rfl rfl (by rfl) (by rfl) (by rfl) rfl (by rfl) (by rfl)
    (Or.inl (by rfl)) (by rfl) rfl

/-- Claim C5, counterexample: the view is unmounted while the key-value
read is pending; the cleanup has already run, the still-running load then
creates two object URLs (it pushes them and creates them regardless of
the liveness flag) and nothing ever revokes them: two handles created
during the view's lifetime, zero revocations. -/
theorem c5_revocation_counterexample :
    (runWithCut envBothOk 0).created = [0, 1] ∧
    (runWithCut envBothOk 0).revoked = [] :=
  ⟨by decide, by decide⟩

/-- Claim C5 as amended: handles created by a load that completed before
teardown are revoked exactly once at teardown, and every revocation in
the cleanup loop is attempted even when revocations throw (exceptions are
swallowed); but a load still in flight at teardown keeps creating handles
afterwards, and those are never revoked (see the counterexample). -/
theorem c5_revocation_amended :
    (∀ (env : Env) (u : Nat), u ∈ (runWithCut env 3).created →
      (runWithCut env 3).revoked.count u = 1) ∧
    (∀ (fails : Nat → Bool) (us : List Nat), cleanupRevokes fails us = us) := by
  constructor
  · intro env u hu
    have h := loadResume_three_shape env
    have hrw : runWithCut env 3 = cleanup env (loadResume env 3 initWorld) := by
      simp [runWithCut]
    rw [hrw] at hu ⊢
    rcases h with ⟨hrev, hurls, hshape⟩
    simp only [cleanup, hrev, hurls, cleanupRevokes_eq, List.nil_append] at hu ⊢
    rcases hshape with h1 | h1 | h1 <;> rw [h1] at hu ⊢ <;> simp_all
  · exact cleanupRevokes_eq

/-- Claim C5 amended, witness: after the happy-path load and ordinary
teardown, handle 0 was created and is revoked exactly once. -/
theorem c5_revocation_witness :
    (runWithCut envBothOk 3).revoked.count 0 = 1 :=
  c5_revocation_amended.1 envBothOk 0 (by decide)

end AiAna
